import Mathlib

/-!
Shallow embedding of the invoice-collector pipeline (src/amazon.js, src/storage.js):
the batch queue (`BatchPrinter`), the `process` drain loop of
`AmazonService.downloadInvoices`, the capture engine `AmazonService.downloadInvoice`,
the history store (`Storage`), and the `goto` page-number prompt.

Persisted files are modelled as explicit values (`Option BatchFile`, `StorageState`);
file I/O is assumed to succeed (no disk-failure modelling).  Timestamps are opaque
strings supplied by the caller (JS `new Date().toISOString()`).
-/

/-- Status strings carried by batch-queue items ('pending' / 'completed' / 'failed'). -/
inductive Status where
  | pending
  | completed
  | failed
deriving DecidableEq, Repr

/-- An order summary scraped from a listing page (`page.evaluate` in
`downloadInvoices`): orderId, orderDate, total, and the item labels. -/
structure OrderSummary where
  orderId : String
  orderDate : String
  total : String
  items : List String
deriving DecidableEq, Repr

/-- A batch-queue entry as built by `BatchPrinter.add`.  Optional fields model JS
object keys that may be absent/undefined: `description` is `order.items[0]`
(undefined when the items list is empty), `processedAt` and `error` are only set
by the drain loop. -/
structure BatchItem where
  orderId : String
  description : Option String
  date : String
  total : String
  url : String
  selected : String
  status : Status
  processedAt : Option String
  error : Option String
deriving DecidableEq, Repr

/-- Contents of the persisted batch-queue file `batch_queue.json`:
`{ lastUpdated, invoices }`. -/
structure BatchFile where
  lastUpdated : String
  invoices : List BatchItem
deriving DecidableEq, Repr

/-- BatchPrinter.save: writes `{ lastUpdated: now, invoices: mem }` to the batch
file (creating the parent directory as needed).  The resulting file state is
`some` of that record. -/
def BatchPrinter.save (now : String) (mem : List BatchItem) : Option BatchFile :=
  some { lastUpdated := now, invoices := mem }

/-- BatchPrinter.load: reads the batch file; a missing file (ENOENT) or failed
read yields an empty in-memory queue, otherwise `queue.invoices`. -/
def BatchPrinter.load : Option BatchFile → List BatchItem
  | none => []
  | some q => q.invoices

/-- BatchPrinter.getPending: `selectedInvoices.filter(invoice => invoice.status === 'pending')`. -/
def BatchPrinter.getPending (mem : List BatchItem) : List BatchItem :=
  mem.filter (fun invoice => invoice.status = Status.pending)

/-- BatchPrinter.getCount: `selectedInvoices.length`. -/
def BatchPrinter.getCount (mem : List BatchItem) : Nat :=
  mem.length

/-- The arrow function inside `orders.map(...)` of BatchPrinter.add: builds a new
queue entry with status 'pending'; `selected` is the `new Date().toISOString()`
timestamp threaded in as `now`. -/
def BatchPrinter.mkBatchItem (now : String) (order : OrderSummary) : BatchItem :=
  { orderId := order.orderId
    description := order.items.head?
    date := order.orderDate
    total := order.total
    url := "https://www.amazon.com/gp/css/summary/print.html/ref=od_aui_print_invoice?ie=UTF8&orderID=" ++ order.orderId
    selected := now
    status := Status.pending
    processedAt := none
    error := none }

/-- BatchPrinter.add: maps the selected orders to new pending items, pushes them
onto `selectedInvoices`, then awaits `save()`.  The count added appears only in
a `console.log` message; the JS function body has no return statement, so the
call evaluates to undefined — modelled by the third component being `none`. -/
def BatchPrinter.add (now : String) (orders : List OrderSummary) (mem : List BatchItem) :
    List BatchItem × Option BatchFile × Option Nat :=
  let newInvoices := orders.map (BatchPrinter.mkBatchItem now)
  let mem' := mem ++ newInvoices
  (mem', BatchPrinter.save now mem', none)

/-- BatchPrinter.clear: resets `selectedInvoices` to `[]` and unlinks the batch
file (tolerating an already-absent file). -/
def BatchPrinter.clear : List BatchItem × Option BatchFile :=
  ([], none)

/-!
The `process` action of `AmazonService.downloadInvoices`.

The loop `for (const [index, invoice] of pendingInvoices.entries())` iterates
the snapshot `pendingInvoices = batchPrinter.getPending()`, whose elements are
the very objects stored in `selectedInvoices` (JS aliasing): setting
`invoice.status` writes through to the queue, and `batchPrinter.save()`
serializes the full current queue.  Since `getPending` preserves order, the loop
is iterated here directly over the queue, skipping non-pending entries.

`env k` is the outcome of `await this.downloadInvoice(invoice.orderId, invoice.date)`
for the k-th pending invoice — the capture engine including its internal retries:
`Except.ok fileName` on success, `Except.error msg` when it propagates a failure.
`continueChoice k` is the operator's answer to the `shouldContinue` confirm prompt
shown after the k-th invoice fails.
-/

/-- The drain loop of the `process` action.  `acc` is the already-visited prefix
of the queue (reversed), the `List BatchItem` argument is the rest of the queue,
`k` the snapshot index (`index` of `.entries()`), and the file is threaded through
each `batchPrinter.save()`.  Returns the final queue, the final file, and the
number of `save()` calls made by the loop (one per attempted invoice).  On a
success the item is marked 'completed' with `processedAt` set and the queue is
saved; on a failure it is marked 'failed' with `error` set and the queue is
saved, and a declined continuation prompt breaks out of the loop. -/
def drainLoop (env : Nat → Except String String) (continueChoice : Nat → Bool) (now : String) :
    List BatchItem → List BatchItem → Nat → Option BatchFile →
    List BatchItem × Option BatchFile × Nat
  | acc, [], _k, file => (acc.reverse, file, 0)
  | acc, invoice :: rest, k, file =>
      if invoice.status = Status.pending then
        match env k with
        | Except.ok _fileName =>
            let invoice' := { invoice with status := Status.completed, processedAt := some now }
            let file' := BatchPrinter.save now (acc.reverse ++ invoice' :: rest)
            let r := drainLoop env continueChoice now (invoice' :: acc) rest (k + 1) file'
            (r.1, r.2.1, r.2.2 + 1)
        | Except.error msg =>
            let invoice' := { invoice with status := Status.failed, error := some msg }
            let file' := BatchPrinter.save now (acc.reverse ++ invoice' :: rest)
            if continueChoice k then
              let r := drainLoop env continueChoice now (invoice' :: acc) rest (k + 1) file'
              (r.1, r.2.1, r.2.2 + 1)
            else
              ((invoice' :: acc).reverse ++ rest, file', 1)
      else
        drainLoop env continueChoice now (invoice :: acc) rest k file

/-- Post-loop contents of the aliased `pendingInvoices` array: the drain loop's
per-item updates applied to the pending snapshot itself (every element of the
snapshot has status 'pending' when the loop starts).  Items after a declined
failure are left untouched. -/
def processSnap (env : Nat → Except String String) (continueChoice : Nat → Bool) (now : String) :
    List BatchItem → Nat → List BatchItem
  | [], _k => []
  | invoice :: rest, k =>
      match env k with
      | Except.ok _fileName =>
          { invoice with status := Status.completed, processedAt := some now } ::
            processSnap env continueChoice now rest (k + 1)
      | Except.error msg =>
          let invoice' := { invoice with status := Status.failed, error := some msg }
          if continueChoice k then invoice' :: processSnap env continueChoice now rest (k + 1)
          else invoice' :: rest

/-- Number of invoices the drain loop attempts when `n` pending items remain and
the next snapshot index is `k`: it stops early only when a failure's continuation
prompt is declined. -/
def attemptedCount (env : Nat → Except String String) (continueChoice : Nat → Bool) :
    Nat → Nat → Nat
  | 0, _k => 0
  | n + 1, k =>
      match env k with
      | Except.ok _ => attemptedCount env continueChoice n (k + 1) + 1
      | Except.error _ =>
          if continueChoice k then attemptedCount env continueChoice n (k + 1) + 1 else 1

/-- The value the k-th pending item is overwritten with when it is attempted:
completed with `processedAt` on success, failed with `error` on failure. -/
def outcomeItem (env : Nat → Except String String) (now : String) (k : Nat)
    (invoice : BatchItem) : BatchItem :=
  match env k with
  | Except.ok _ => { invoice with status := Status.completed, processedAt := some now }
  | Except.error msg => { invoice with status := Status.failed, error := some msg }

/-- Write-back of the mutated snapshot into the queue (models JS aliasing): the
pending entries of the queue are replaced, in order, by the entries of the
updated snapshot; non-pending entries are untouched. -/
def writeBack : List BatchItem → List BatchItem → List BatchItem
  | [], _upd => []
  | x :: xs, upd =>
      if x.status = Status.pending then
        match upd with
        | [] => x :: writeBack xs []
        | u :: us => u :: writeBack xs us
      else
        x :: writeBack xs upd

/-- The whole `process` action: take the pending snapshot; if it is empty, print
a message and change nothing.  Otherwise run the drain loop, then compute the
summary over the (aliased, now-updated) snapshot; if it has no 'failed' and no
'pending' entries the queue is cleared (`batchPrinter.clear()`), else the drained
queue and its file are kept. -/
def processAction (env : Nat → Except String String) (continueChoice : Nat → Bool)
    (now : String) (q : List BatchItem) (file : Option BatchFile) :
    List BatchItem × Option BatchFile :=
  let pendingInvoices := BatchPrinter.getPending q
  if pendingInvoices.length = 0 then (q, file)
  else
    let drained := drainLoop env continueChoice now [] q 0 file
    let snapAfter := processSnap env continueChoice now pendingInvoices 0
    let failedCount := (snapAfter.filter (fun i => i.status = Status.failed)).length
    let remainingCount := (snapAfter.filter (fun i => i.status = Status.pending)).length
    if failedCount = 0 ∧ remainingCount = 0 then BatchPrinter.clear
    else (drained.1, drained.2.1)

/-!
History store (src/storage.js) and the capture engine
`AmazonService.downloadInvoice` (src/amazon.js).
-/

/-- One entry of `history.downloadedInvoices`: `{ fileName, downloadDate, orderDate }`. -/
structure HistoryRecord where
  fileName : String
  downloadDate : String
  orderDate : String
deriving DecidableEq, Repr

/-- Parsed contents of `history.json`:
`{ lastSyncDate, downloadedInvoices, lastRunDate }`.  `downloadedInvoices` is a
JS object keyed by orderId, modelled as an association list in key-insertion
order (JS objects preserve string-key insertion order). -/
structure HistoryData where
  lastSyncDate : Option String
  downloadedInvoices : List (String × HistoryRecord)
  lastRunDate : Option String
deriving DecidableEq, Repr

/-- The durable state owned by `Storage`: the written artifact files of the
receipts directory (fileName, PDF bytes) and the parsed history file.
`Storage.initialize()` guarantees the history file exists, so it is modelled as
always present (I/O failures are out of the model). -/
structure StorageState where
  files : List (String × List Nat)
  history : HistoryData
deriving DecidableEq, Repr

/-- Assignment to a JS object key (`obj[k] = v`): replaces the value of an
existing key in place, otherwise appends the key at the end.  Also models
`fs.writeFile` into the artifact-file map. -/
def upsert {β : Type} (k : String) (v : β) : List (String × β) → List (String × β)
  | [] => [(k, v)]
  | (k', v') :: rest => if k' = k then (k, v) :: rest else (k', v') :: upsert k v rest

/-- Storage.saveInvoice: builds the file name `<date>_<platform>_<orderId>.pdf`
(`today` models `new Date().toISOString().split('T')[0]`), writes the PDF bytes
to that file, then performs a read-modify-write on the persisted history:
`getHistory()` reads the current file, the orderId key is upserted with
`{ fileName, downloadDate, orderDate }`, and `saveHistory` flushes it back.
Returns the new state and the file name. -/
def Storage.saveInvoice (platform today orderId : String) (data : List Nat)
    (orderDate : String) (st : StorageState) : StorageState × String :=
  let fileName := today ++ "_" ++ platform ++ "_" ++ orderId ++ ".pdf"
  let st1 : StorageState := { st with files := upsert fileName data st.files }
  let history := st1.history
  let record : HistoryRecord := { fileName := fileName, downloadDate := today, orderDate := orderDate }
  let history' := { history with downloadedInvoices := upsert orderId record history.downloadedInvoices }
  ({ st1 with history := history' }, fileName)

/-- What a single capture attempt of `downloadInvoice` runs into, before any
storage side effect: the four failure modes thrown inside the try block, or a
successfully rendered PDF byte stream. -/
inductive AttemptOutcome where
  | navTimeout (msg : String)
  | wrongPage (url : String)
  | renderTimeout (msg : String)
  | renderError (msg : String)
  | captured (pdf : List Nat)
deriving DecidableEq, Repr

/-- The try-block of one attempt up to (but not including) `storage.saveInvoice`:
a navigation timeout (the `Promise.race` rejection or `page.goto`'s own timeout),
a wrong landing page (throws `Invalid navigation: <url>`), and a render
timeout/error all throw; only a captured PDF reaches the success path. -/
def attemptCapture : AttemptOutcome → Except String (List Nat)
  | AttemptOutcome.navTimeout msg => Except.error msg
  | AttemptOutcome.wrongPage url => Except.error ("Invalid navigation: " ++ url)
  | AttemptOutcome.renderTimeout msg => Except.error msg
  | AttemptOutcome.renderError msg => Except.error msg
  | AttemptOutcome.captured pdf => Except.ok pdf

/-- `const maxRetries = 3` in `downloadInvoice`. -/
def maxRetries : Nat := 3

/-- AmazonService.downloadInvoice: runs one capture attempt (`attemptOutcome
retryCount` is what that attempt encounters); on success it calls
`storage.saveInvoice` and returns the file name; on failure, if
`retryCount < maxRetries` it sleeps 5000ms and re-invokes itself with
`retryCount + 1`, else it rethrows the last error.  Returns the result, the
storage state after the call, the total number of attempts made, and the list
of backoff sleeps (ms) taken before retries. -/
def downloadInvoice (platform today orderId orderDate : String)
    (attemptOutcome : Nat → AttemptOutcome) (retryCount : Nat) (st : StorageState) :
    Except String String × StorageState × Nat × List Nat :=
  match attemptCapture (attemptOutcome retryCount) with
  | Except.ok pdf =>
      let saved := Storage.saveInvoice platform today orderId pdf orderDate st
      (Except.ok saved.2, saved.1, 1, [])
  | Except.error e =>
      if _h : retryCount < maxRetries then
        let r := downloadInvoice platform today orderId orderDate attemptOutcome (retryCount + 1) st
        (r.1, r.2.1, r.2.2.1 + 1, 5000 :: r.2.2.2)
      else
        (Except.error e, st, 1, [])
termination_by maxRetries - retryCount
decreasing_by omega

/-!
The `goto` action's page-number prompt of `AmazonService.downloadInvoices`.
-/

/-- JS `parseInt(input)` restricted to ordinary decimal numerals: skip leading
whitespace, read an optional sign, then the longest leading digit run (anything
after it is ignored); `none` models NaN (no digits).  (The hex `0x` prefix of
parseInt is irrelevant to the page-number prompt and not modelled.) -/
def parseIntJS (s : String) : Option Int :=
  let cs := s.toList.dropWhile (fun c => c.isWhitespace)
  let neg := cs.head? = some '-'
  let digits := if neg ∨ cs.head? = some '+' then cs.drop 1 else cs
  let ds := digits.takeWhile (fun c => c.isDigit)
  if ds.isEmpty then none
  else
    let n : Nat := ds.foldl (fun acc c => acc * 10 + (c.toNat - 48)) 0
    some (if neg then -(n : Int) else (n : Int))

/-- The `validate` callback of the goto prompt: `parseInt(input)`; inputs whose
parse is NaN or < 1 are rejected (the prompt shows an error message and asks
again), anything else returns `true`. -/
def gotoValidate (input : String) : Bool :=
  match parseIntJS input with
  | none => false
  | some num => if num < 1 then false else true

/-- The `filter` callback of the goto prompt: `parseInt(input) - 1`. -/
def gotoFilter (input : String) : Option Int :=
  (parseIntJS input).map (fun n => n - 1)

/-- The goto transition: a validated input sets `currentPage` to the filtered
value; a rejected input leaves the page unchanged (inquirer re-prompts until
validation passes). -/
def gotoAction (currentPage : Int) (input : String) : Int :=
  if gotoValidate input then (gotoFilter input).getD currentPage else currentPage

/-!
Concrete values used by witnesses and counterexamples.
-/

/-- A sample scraped order. -/
def sampleOrder : OrderSummary :=
  { orderId := "111-2223334-5556667"
    orderDate := "January 2, 2025"
    total := "$12.34"
    items := ["USB cable"] }

/-- A pending batch item. -/
def p0 : BatchItem :=
  { orderId := "111-0000000-0000001"
    description := some "USB cable"
    date := "January 2, 2025"
    total := "$12.34"
    url := "https://www.amazon.com/gp/css/summary/print.html/ref=od_aui_print_invoice?ie=UTF8&orderID=111-0000000-0000001"
    selected := "2025-01-02T00:00:00.000Z"
    status := Status.pending
    processedAt := none
    error := none }

/-- A batch item left 'failed' by an earlier run (not in the current pending
snapshot). -/
def itemF : BatchItem :=
  { orderId := "111-0000000-0000002"
    description := some "HDMI cable"
    date := "December 20, 2024"
    total := "$9.99"
    url := "https://www.amazon.com/gp/css/summary/print.html/ref=od_aui_print_invoice?ie=UTF8&orderID=111-0000000-0000002"
    selected := "2024-12-21T00:00:00.000Z"
    status := Status.failed
    processedAt := none
    error := some "Navigation timeout" }

/-- A previously recorded history entry. -/
def recA : HistoryRecord :=
  { fileName := "2025-01-01_amazon_111-0000000-0000009.pdf"
    downloadDate := "2025-01-01"
    orderDate := "December 30, 2024" }

/-- A storage state holding one prior artifact and one prior history record. -/
def st0 : StorageState :=
  { files := [("2025-01-01_amazon_111-0000000-0000009.pdf", [37, 80, 68, 70])]
    history :=
      { lastSyncDate := none
        downloadedInvoices := [("111-0000000-0000009", recA)]
        lastRunDate := none } }

/-!
Helper lemmas about the batch-queue drain loop.
-/

theorem getPending_cons_pos {invoice : BatchItem} (h : invoice.status = Status.pending)
    (rest : List BatchItem) :
    BatchPrinter.getPending (invoice :: rest) = invoice :: BatchPrinter.getPending rest := by
  simp [BatchPrinter.getPending, List.filter_cons, h]

theorem getPending_cons_neg {invoice : BatchItem} (h : ¬ invoice.status = Status.pending)
    (rest : List BatchItem) :
    BatchPrinter.getPending (invoice :: rest) = BatchPrinter.getPending rest := by
  simp [BatchPrinter.getPending, List.filter_cons, h]

theorem getPending_status {b : BatchItem} {q : List BatchItem}
    (h : b ∈ BatchPrinter.getPending q) : b.status = Status.pending := by
  simp only [BatchPrinter.getPending, List.mem_filter, decide_eq_true_eq] at h
  exact h.2

theorem writeBack_nil_upd : ∀ xs : List BatchItem, writeBack xs [] = xs := by
  intro xs
  induction xs with
  | nil => rfl
  | cons x rest ih =>
      by_cases h : x.status = Status.pending <;> simp [writeBack, h, ih]

theorem writeBack_self : ∀ xs : List BatchItem, writeBack xs (BatchPrinter.getPending xs) = xs := by
  intro xs
  induction xs with
  | nil => rfl
  | cons x rest ih =>
      by_cases h : x.status = Status.pending
      · rw [getPending_cons_pos h]
        simp [writeBack, h, ih]
      · rw [getPending_cons_neg h]
        simp [writeBack, h, ih]

/-- Characterization of the drain loop: the final queue is the pending snapshot's
post-loop values written back into the queue, the final file is the last save of
exactly that queue (unchanged when nothing was pending), and the number of
`save()` calls equals the number of attempted invoices. -/
theorem drainLoop_spec (env : Nat → Except String String) (continueChoice : Nat → Bool)
    (now : String) :
    ∀ (q acc : List BatchItem) (k : Nat) (file : Option BatchFile),
      drainLoop env continueChoice now acc q k file =
        (acc.reverse ++
           writeBack q (processSnap env continueChoice now (BatchPrinter.getPending q) k),
         (if BatchPrinter.getPending q = [] then file
          else BatchPrinter.save now
            (acc.reverse ++
              writeBack q (processSnap env continueChoice now (BatchPrinter.getPending q) k))),
         attemptedCount env continueChoice (BatchPrinter.getPending q).length k) := by
  intro q
  induction q with
  | nil =>
      intro acc k file
      simp [drainLoop, writeBack, BatchPrinter.getPending, attemptedCount]
  | cons invoice rest ih =>
      intro acc k file
      by_cases hp : invoice.status = Status.pending
      · rw [getPending_cons_pos hp]
        cases he : env k with
        | ok fn =>
            by_cases hrest : BatchPrinter.getPending rest = []
            · simp [drainLoop, hp, he, ih, processSnap, attemptedCount, writeBack, hrest,
                writeBack_nil_upd, BatchPrinter.save, List.append_assoc]
            · simp [drainLoop, hp, he, ih, processSnap, attemptedCount, writeBack, hrest,
                BatchPrinter.save, List.append_assoc]
        | error msg =>
            by_cases hc : continueChoice k
            · by_cases hrest : BatchPrinter.getPending rest = []
              · simp [drainLoop, hp, he, hc, ih, processSnap, attemptedCount, writeBack,
                  hrest, writeBack_nil_upd, BatchPrinter.save, List.append_assoc]
              · simp [drainLoop, hp, he, hc, ih, processSnap, attemptedCount, writeBack,
                  hrest, BatchPrinter.save, List.append_assoc]
            · simp [drainLoop, hp, he, hc, processSnap, attemptedCount, writeBack,
                writeBack_self, BatchPrinter.save, List.append_assoc]
      · rw [getPending_cons_neg hp]
        by_cases hrest : BatchPrinter.getPending rest = []
        · simp [drainLoop, hp, ih, writeBack, hrest, List.append_assoc]
        · simp [drainLoop, hp, ih, writeBack, hrest, BatchPrinter.save, List.append_assoc]

theorem attemptedCount_le (env : Nat → Except String String) (continueChoice : Nat → Bool) :
    ∀ n k, attemptedCount env continueChoice n k ≤ n := by
  intro n
  induction n with
  | zero => intro k; simp [attemptedCount]
  | succ m ih =>
      intro k
      cases he : env k with
      | ok fn => simp only [attemptedCount, he]; exact Nat.succ_le_succ (ih (k + 1))
      | error msg =>
          simp only [attemptedCount, he]
          cases hc : continueChoice k
          · simp only [hc, Bool.false_eq_true, if_false]; omega
          · simp only [hc, if_true]; exact Nat.succ_le_succ (ih (k + 1))

theorem attemptedCount_pos (env : Nat → Except String String) (continueChoice : Nat → Bool)
    (n k : Nat) : 1 ≤ attemptedCount env continueChoice (n + 1) k := by
  cases he : env k with
  | ok fn => simp [attemptedCount, he]
  | error msg =>
      simp only [attemptedCount, he]
      by_cases hc : continueChoice k <;> simp [hc]

theorem processSnap_length (env : Nat → Except String String) (continueChoice : Nat → Bool)
    (now : String) :
    ∀ (p : List BatchItem) (k : Nat),
      (processSnap env continueChoice now p k).length = p.length := by
  intro p
  induction p with
  | nil => intro k; rfl
  | cons invoice rest ih =>
      intro k
      cases he : env k with
      | ok fn => simp [processSnap, he, ih]
      | error msg =>
          by_cases hc : continueChoice k <;> simp [processSnap, he, hc, ih]

/-- Every invoice attempted before the loop ends is overwritten with its
capture outcome: completed on success, failed with the error message on
failure. -/
theorem processSnap_get_lt (env : Nat → Except String String) (continueChoice : Nat → Bool)
    (now : String) :
    ∀ (p : List BatchItem) (k j : Nat) (b : BatchItem),
      j < attemptedCount env continueChoice p.length k →
      p.get? j = some b →
      (processSnap env continueChoice now p k).get? j = some (outcomeItem env now (k + j) b) := by
  intro p
  induction p with
  | nil => intro k j b _ hget; simp at hget
  | cons invoice rest ih =>
      intro k j b hj hget
      cases j with
      | zero =>
          simp only [List.get?_cons_zero, Option.some.injEq] at hget
          subst hget
          cases he : env k with
          | ok fn => simp [processSnap, he, outcomeItem]
          | error msg =>
              by_cases hc : continueChoice k <;>
                simp [processSnap, he, hc, outcomeItem]
      | succ j' =>
          simp only [List.get?_cons_succ] at hget
          cases he : env k with
          | ok fn =>
              simp only [List.length_cons, attemptedCount, he] at hj
              have hj' : j' < attemptedCount env continueChoice rest.length (k + 1) := by omega
              have := ih (k + 1) j' b hj' hget
              simpa [processSnap, he, Nat.add_assoc, Nat.add_comm, Nat.add_left_comm] using this
          | error msg =>
              simp only [List.length_cons, attemptedCount, he] at hj
              by_cases hc : continueChoice k
              · simp only [hc, if_true] at hj
                have hj' : j' < attemptedCount env continueChoice rest.length (k + 1) := by omega
                have := ih (k + 1) j' b hj' hget
                simpa [processSnap, he, hc, Nat.add_assoc, Nat.add_comm, Nat.add_left_comm]
                  using this
              · rw [Bool.not_eq_true] at hc
                simp only [hc, Bool.false_eq_true, if_false] at hj
                omega

/-- Every invoice after the point where the loop ends keeps its original value
(it is never attempted). -/
theorem processSnap_get_ge (env : Nat → Except String String) (continueChoice : Nat → Bool)
    (now : String) :
    ∀ (p : List BatchItem) (k j : Nat) (b : BatchItem),
      attemptedCount env continueChoice p.length k ≤ j →
      p.get? j = some b →
      (processSnap env continueChoice now p k).get? j = some b := by
  intro p
  induction p with
  | nil => intro k j b _ hget; simp at hget
  | cons invoice rest ih =>
      intro k j b hj hget
      have hpos := attemptedCount_pos env continueChoice rest.length k
      cases j with
      | zero =>
          exfalso
          simp only [List.length_cons] at hj
          omega
      | succ j' =>
          simp only [List.get?_cons_succ] at hget
          cases he : env k with
          | ok fn =>
              simp only [List.length_cons, attemptedCount, he] at hj
              have hj' : attemptedCount env continueChoice rest.length (k + 1) ≤ j' := by omega
              have := ih (k + 1) j' b hj' hget
              simpa [processSnap, he] using this
          | error msg =>
              simp only [List.length_cons, attemptedCount, he] at hj
              by_cases hc : continueChoice k
              · simp only [hc, if_true] at hj
                have hj' : attemptedCount env continueChoice rest.length (k + 1) ≤ j' := by omega
                have := ih (k + 1) j' b hj' hget
                simpa [processSnap, he, hc] using this
              · simp only [processSnap, he, hc, if_false, List.get?_cons_succ]
                exact hget

/-- When the loop stops before exhausting the pending list, the last attempted
invoice failed and the operator declined the continuation prompt. -/
theorem attemptedCount_halt (env : Nat → Except String String) (continueChoice : Nat → Bool) :
    ∀ n k, attemptedCount env continueChoice n k < n →
      continueChoice (k + attemptedCount env continueChoice n k - 1) = false ∧
      ∃ msg, env (k + attemptedCount env continueChoice n k - 1) = Except.error msg := by
  intro n
  induction n with
  | zero => intro k h; omega
  | succ m ih =>
      intro k h
      cases he : env k with
      | ok fn =>
          simp only [attemptedCount, he] at h ⊢
          have hlt : attemptedCount env continueChoice m (k + 1) < m := by omega
          have hpos : 1 ≤ attemptedCount env continueChoice m (k + 1) := by
            cases m with
            | zero => omega
            | succ m' => exact attemptedCount_pos env continueChoice m' (k + 1)
          have := ih (k + 1) hlt
          have harith : k + 1 + attemptedCount env continueChoice m (k + 1) - 1 =
              k + (attemptedCount env continueChoice m (k + 1) + 1) - 1 := by omega
          rw [harith] at this
          exact this
      | error msg =>
          by_cases hc : continueChoice k
          · simp only [attemptedCount, he, hc, if_true] at h ⊢
            have hlt : attemptedCount env continueChoice m (k + 1) < m := by omega
            have hpos : 1 ≤ attemptedCount env continueChoice m (k + 1) := by
              cases m with
              | zero => omega
              | succ m' => exact attemptedCount_pos env continueChoice m' (k + 1)
            have := ih (k + 1) hlt
            have harith : k + 1 + attemptedCount env continueChoice m (k + 1) - 1 =
                k + (attemptedCount env continueChoice m (k + 1) + 1) - 1 := by omega
            rw [harith] at this
            exact this
          · rw [Bool.not_eq_true] at hc
            simp only [attemptedCount, he, hc, Bool.false_eq_true, if_false,
              Nat.add_sub_cancel]
            exact ⟨trivial, msg, rfl⟩

/-!
Claim theorems.
-/

/-- C7: for every in-memory batch queue state, `save()` followed by `load()`
reproduces the in-memory item sequence exactly — same items, same fields, same
insertion order. -/
theorem C7_save_load_roundtrip (now : String) (mem : List BatchItem) :
    BatchPrinter.load (BatchPrinter.save now mem) = mem := rfl

/-- C10: the goto page-number prompt rejects the inputs "0" and "-1" and accepts
"3", setting currentPage to 2 (the entered number minus one), from any prior
page. -/
theorem C10_goto_page_prompt (currentPage : Int) :
    gotoValidate "0" = false ∧ gotoValidate "-1" = false ∧ gotoValidate "3" = true ∧
    gotoAction currentPage "3" = 2 := by
  refine ⟨by decide, by decide, by decide, ?_⟩
  have h1 : gotoValidate "3" = true := by decide
  have h2 : gotoFilter "3" = some 2 := by decide
  simp [gotoAction, h1, h2]

/-- C9 counterexample: adding one order to an empty queue returns undefined
(the JS function has no return statement), not the count 1 of items added. -/
theorem C9_counterexample :
    (BatchPrinter.add "2025-01-02T00:00:00.000Z" [sampleOrder] []).2.2 ≠
      some ([sampleOrder].length) := by
  decide

/-- C9 amended: `add` appends one new BatchItem per input order with status
'pending', persists the queue immediately, and prints the count added to the
console; the function itself returns no value (undefined). -/
theorem C9_add_appends_pending (now : String) (orders : List OrderSummary)
    (mem : List BatchItem) :
    (BatchPrinter.add now orders mem).1 = mem ++ orders.map (BatchPrinter.mkBatchItem now) ∧
    ((BatchPrinter.add now orders mem).1).length = mem.length + orders.length ∧
    (BatchPrinter.add now orders mem).2.1 =
      BatchPrinter.save now ((BatchPrinter.add now orders mem).1) ∧
    (∀ order : OrderSummary,
      (BatchPrinter.mkBatchItem now order).status = Status.pending ∧
      (BatchPrinter.mkBatchItem now order).orderId = order.orderId) ∧
    (BatchPrinter.add now orders mem).2.2 = none := by
  refine ⟨rfl, by simp [BatchPrinter.add], rfl, fun order => ⟨rfl, rfl⟩, rfl⟩

/-- C8: after every mutating batch-queue call — add, the per-item status updates
and saves of the process drain, clear — the persisted file loads back to exactly
the in-memory queue (mutate, then persist, then return). -/
theorem C8_memory_file_reconciled :
    (∀ (now : String) (orders : List OrderSummary) (mem : List BatchItem),
        BatchPrinter.load (BatchPrinter.add now orders mem).2.1 =
          (BatchPrinter.add now orders mem).1) ∧
    BatchPrinter.load BatchPrinter.clear.2 = BatchPrinter.clear.1 ∧
    (∀ (env : Nat → Except String String) (continueChoice : Nat → Bool) (now : String)
        (q : List BatchItem) (file : Option BatchFile),
        BatchPrinter.load file = q →
        BatchPrinter.load (processAction env continueChoice now q file).2 =
          (processAction env continueChoice now q file).1) := by
  refine ⟨fun now orders mem => rfl, rfl, ?_⟩
  intro env continueChoice now q file hload
  by_cases hlen : (BatchPrinter.getPending q).length = 0
  · simp only [processAction, if_pos hlen]
    exact hload
  · have hne : BatchPrinter.getPending q ≠ [] := by
      intro h; rw [h] at hlen; simp at hlen
    simp only [processAction, if_neg hlen]
    split
    · rfl
    · rw [drainLoop_spec, if_neg hne]
      rfl

/-!
History-store lemmas and claim C6.
-/

theorem lookup_upsert_self {β : Type} (k : String) (v : β) :
    ∀ l : List (String × β), (upsert k v l).lookup k = some v := by
  intro l
  induction l with
  | nil => simp [upsert, List.lookup]
  | cons kv rest ih =>
      obtain ⟨k', v'⟩ := kv
      by_cases h : k' = k
      · subst h
        simp [upsert, List.lookup]
      · have hb : (k == k') = false := beq_eq_false_iff_ne.mpr (Ne.symm h)
        simp [upsert, h, List.lookup, hb, ih]

theorem lookup_upsert_ne {β : Type} (k k2 : String) (v : β) (hne : k2 ≠ k) :
    ∀ l : List (String × β), (upsert k v l).lookup k2 = l.lookup k2 := by
  intro l
  induction l with
  | nil =>
      have hb : (k2 == k) = false := beq_eq_false_iff_ne.mpr hne
      simp [upsert, List.lookup, hb]
  | cons kv rest ih =>
      obtain ⟨k', v'⟩ := kv
      by_cases h : k' = k
      · subst h
        have hb : (k2 == k') = false := beq_eq_false_iff_ne.mpr hne
        simp [upsert, List.lookup, hb]
      · by_cases h2 : k2 = k'
        · subst h2
          simp [upsert, h, List.lookup]
        · have hb : (k2 == k') = false := beq_eq_false_iff_ne.mpr h2
          simp [upsert, h, List.lookup, hb, ih]

/-- C6: recording a successful capture is a read-modify-write against the
existing persisted history: the new orderId is mapped to its record
(fileName, downloadDate, orderDate), every other previously recorded orderId
keeps its value, and the whole updated history is flushed to the persisted
state.  The prior state `st` is arbitrary persisted state, so the property
holds in particular across process restarts. -/
theorem C6_record_preserves_history (platform today orderId orderDate : String)
    (data : List Nat) (st : StorageState) :
    (Storage.saveInvoice platform today orderId data orderDate st).2 =
      today ++ "_" ++ platform ++ "_" ++ orderId ++ ".pdf" ∧
    ((Storage.saveInvoice platform today orderId data orderDate st).1).history.downloadedInvoices =
      upsert orderId
        { fileName := (Storage.saveInvoice platform today orderId data orderDate st).2
          downloadDate := today
          orderDate := orderDate }
        st.history.downloadedInvoices ∧
    (((Storage.saveInvoice platform today orderId data orderDate st).1).history.downloadedInvoices).lookup
        orderId =
      some
        { fileName := (Storage.saveInvoice platform today orderId data orderDate st).2
          downloadDate := today
          orderDate := orderDate } ∧
    (∀ k : String, k ≠ orderId →
      (((Storage.saveInvoice platform today orderId data orderDate st).1).history.downloadedInvoices).lookup
          k =
        (st.history.downloadedInvoices).lookup k) := by
  refine ⟨rfl, rfl, ?_, ?_⟩
  · exact lookup_upsert_self orderId _ st.history.downloadedInvoices
  · intro k hk
    exact lookup_upsert_ne orderId k _ hk st.history.downloadedInvoices

/-- C6 witness: recording a new order keeps the previously recorded one and adds
the new mapping. -/
theorem C6_witness :
    (((Storage.saveInvoice "amazon" "2025-01-02" "111-0000000-0000001" [1, 2]
        "January 2, 2025" st0).1).history.downloadedInvoices).lookup "111-0000000-0000009" =
      (st0.history.downloadedInvoices).lookup "111-0000000-0000009" ∧
    (((Storage.saveInvoice "amazon" "2025-01-02" "111-0000000-0000001" [1, 2]
        "January 2, 2025" st0).1).history.downloadedInvoices).lookup "111-0000000-0000001" =
      some
        { fileName := "2025-01-02_amazon_111-0000000-0000001.pdf"
          downloadDate := "2025-01-02"
          orderDate := "January 2, 2025" } := by
  constructor
  · exact (C6_record_preserves_history "amazon" "2025-01-02" "111-0000000-0000001"
      "January 2, 2025" [1, 2] st0).2.2.2 "111-0000000-0000009" (by decide)
  · have h := (C6_record_preserves_history "amazon" "2025-01-02" "111-0000000-0000001"
      "January 2, 2025" [1, 2] st0).2.2.1
    simpa using h

/-!
Capture-engine lemmas and claims C4, C5.
-/

/-- Evaluation of `downloadInvoice` when every attempt fails: four attempts are
made (retryCount 0..3), a 5000ms backoff precedes each of the three retries,
the error of the last attempt is propagated, and storage is untouched. -/
theorem downloadInvoice_allFail (platform today orderId orderDate : String)
    (attemptOutcome : Nat → AttemptOutcome) (msg : Nat → String) (st : StorageState)
    (hfail : ∀ n, attemptCapture (attemptOutcome n) = Except.error (msg n)) :
    downloadInvoice platform today orderId orderDate attemptOutcome 0 st =
      (Except.error (msg 3), st, 4, [5000, 5000, 5000]) := by
  have h3 : downloadInvoice platform today orderId orderDate attemptOutcome 3 st =
      (Except.error (msg 3), st, 1, []) := by
    rw [downloadInvoice]
    simp [hfail, maxRetries]
  have h2 : downloadInvoice platform today orderId orderDate attemptOutcome 2 st =
      (Except.error (msg 3), st, 2, [5000]) := by
    rw [downloadInvoice]
    simp [hfail, maxRetries, h3]
  have h1 : downloadInvoice platform today orderId orderDate attemptOutcome 1 st =
      (Except.error (msg 3), st, 3, [5000, 5000]) := by
    rw [downloadInvoice]
    simp [hfail, maxRetries, h2]
  rw [downloadInvoice]
  simp [hfail, maxRetries, h1]

/-- Auxiliary fuel induction: whenever `downloadInvoice` propagates an error,
the storage state it returns is exactly the input state. -/
theorem downloadInvoice_error_state (platform today orderId orderDate : String)
    (attemptOutcome : Nat → AttemptOutcome) :
    ∀ (fuel retryCount : Nat), maxRetries - retryCount ≤ fuel →
      ∀ (st : StorageState) (e : String),
        (downloadInvoice platform today orderId orderDate attemptOutcome retryCount st).1 =
          Except.error e →
        (downloadInvoice platform today orderId orderDate attemptOutcome retryCount st).2.1 =
          st := by
  intro fuel
  induction fuel with
  | zero =>
      intro rc hrc st e herr
      have hge : ¬ rc < maxRetries := by simp [maxRetries] at hrc ⊢; omega
      rw [downloadInvoice] at herr ⊢
      cases hatt : attemptCapture (attemptOutcome rc) with
      | ok pdf => rw [hatt] at herr; simp at herr
      | error e' => simp [hge]
  | succ m ih =>
      intro rc hrc st e herr
      rw [downloadInvoice] at herr ⊢
      cases hatt : attemptCapture (attemptOutcome rc) with
      | ok pdf => rw [hatt] at herr; simp at herr
      | error e' =>
          rw [hatt] at herr
          by_cases hlt : rc < maxRetries
          · simp only [hlt] at herr ⊢
            simp at herr ⊢
            exact ih (rc + 1) (by omega) st e herr
          · simp [hlt]

/-- C4: for an order whose capture attempt always fails, downloadInvoice retries
exactly maxRetries = 3 additional times after the first attempt (4 total
attempts), waits the fixed 5-second (5000ms) backoff before each retry, and
propagates the failure of the last attempt to the caller once attempts are
exhausted. -/
theorem C4_retries_exhausted (platform today orderId orderDate : String)
    (attemptOutcome : Nat → AttemptOutcome) (msg : Nat → String) (st : StorageState)
    (hfail : ∀ n, attemptCapture (attemptOutcome n) = Except.error (msg n)) :
    downloadInvoice platform today orderId orderDate attemptOutcome 0 st =
      (Except.error (msg 3), st, 4, [5000, 5000, 5000]) :=
  downloadInvoice_allFail platform today orderId orderDate attemptOutcome msg st hfail

/-- C4 witness: a concrete always-failing oracle (every attempt hits the
navigation timeout) makes four attempts with three 5000ms backoffs. -/
theorem C4_witness :
    downloadInvoice "amazon" "2025-01-02" "111-0000000-0000001" "January 2, 2025"
        (fun _ => AttemptOutcome.navTimeout "Navigation timeout") 0 st0 =
      (Except.error "Navigation timeout", st0, 4, [5000, 5000, 5000]) :=
  C4_retries_exhausted "amazon" "2025-01-02" "111-0000000-0000001" "January 2, 2025"
    (fun _ => AttemptOutcome.navTimeout "Navigation timeout")
    (fun _ => "Navigation timeout") st0 (fun _ => rfl)

/-- C5: the capture engine persists the artifact and the history record only on
the success path — whenever downloadInvoice propagates a failure (navigation
timeout, wrong page, render timeout or render error on every attempt), the
storage state is returned unchanged: no artifact file is added and the history
entry for the orderId is untouched. -/
theorem C5_failure_leaves_no_artifact (platform today orderId orderDate : String)
    (attemptOutcome : Nat → AttemptOutcome) (retryCount : Nat) (st : StorageState)
    (e : String)
    (herr : (downloadInvoice platform today orderId orderDate attemptOutcome retryCount st).1 =
      Except.error e) :
    (downloadInvoice platform today orderId orderDate attemptOutcome retryCount st).2.1 = st ∧
    ((downloadInvoice platform today orderId orderDate attemptOutcome retryCount st).2.1).files =
      st.files ∧
    (((downloadInvoice platform today orderId orderDate attemptOutcome retryCount
          st).2.1).history.downloadedInvoices).lookup orderId =
      (st.history.downloadedInvoices).lookup orderId := by
  have h := downloadInvoice_error_state platform today orderId orderDate attemptOutcome
    (maxRetries - retryCount) retryCount (Nat.le_refl _) st e herr
  exact ⟨h, by rw [h], by rw [h]⟩

/-- C5 witness: a run in which every attempt times out leaves the storage state
exactly as it was. -/
theorem C5_witness :
    (downloadInvoice "amazon" "2025-01-02" "111-0000000-0000001" "January 2, 2025"
        (fun _ => AttemptOutcome.navTimeout "Navigation timeout") 0 st0).2.1 = st0 :=
  (C5_failure_leaves_no_artifact "amazon" "2025-01-02" "111-0000000-0000001"
    "January 2, 2025" (fun _ => AttemptOutcome.navTimeout "Navigation timeout") 0 st0
    "Navigation timeout"
    (by
      rw [downloadInvoice_allFail "amazon" "2025-01-02" "111-0000000-0000001"
        "January 2, 2025" (fun _ => AttemptOutcome.navTimeout "Navigation timeout")
        (fun _ => "Navigation timeout") st0 (fun _ => rfl)])).1

/-!
Claim C1: the process drain loop.
-/

/-- C1: for a process run whose pending list is non-empty, the pending items are
attempted sequentially in queue (insertion) order: some initial count a
(1 ≤ a ≤ number of pending items) of them is attempted; each attempted item is
overwritten with its outcome — status 'completed' with processedAt on success,
status 'failed' with the error message recorded on failure; every not-yet
attempted item is left with status 'pending'; the loop performs one queue save
per attempted item and ends with the persisted file equal to the final queue
(the mutated snapshot written back); and the loop stops before the end of the
pending list only when an item failed and the operator declined the
continuation prompt. -/
theorem C1_process_drain (env : Nat → Except String String) (continueChoice : Nat → Bool)
    (now : String) (q : List BatchItem) (file : Option BatchFile)
    (hne : BatchPrinter.getPending q ≠ []) :
    1 ≤ attemptedCount env continueChoice (BatchPrinter.getPending q).length 0 ∧
    attemptedCount env continueChoice (BatchPrinter.getPending q).length 0 ≤
      (BatchPrinter.getPending q).length ∧
    drainLoop env continueChoice now [] q 0 file =
      (writeBack q (processSnap env continueChoice now (BatchPrinter.getPending q) 0),
       BatchPrinter.save now
         (writeBack q (processSnap env continueChoice now (BatchPrinter.getPending q) 0)),
       attemptedCount env continueChoice (BatchPrinter.getPending q).length 0) ∧
    (∀ (j : Nat) (b : BatchItem),
        j < attemptedCount env continueChoice (BatchPrinter.getPending q).length 0 →
        (BatchPrinter.getPending q).get? j = some b →
        (processSnap env continueChoice now (BatchPrinter.getPending q) 0).get? j =
          some (outcomeItem env now j b)) ∧
    (∀ (j : Nat) (b : BatchItem),
        attemptedCount env continueChoice (BatchPrinter.getPending q).length 0 ≤ j →
        (BatchPrinter.getPending q).get? j = some b →
        (processSnap env continueChoice now (BatchPrinter.getPending q) 0).get? j = some b ∧
          b.status = Status.pending) ∧
    (attemptedCount env continueChoice (BatchPrinter.getPending q).length 0 <
        (BatchPrinter.getPending q).length →
      continueChoice
          (attemptedCount env continueChoice (BatchPrinter.getPending q).length 0 - 1) = false ∧
      ∃ msg,
        env (attemptedCount env continueChoice (BatchPrinter.getPending q).length 0 - 1) =
          Except.error msg) := by
  refine ⟨?_, attemptedCount_le env continueChoice _ 0, ?_, ?_, ?_, ?_⟩
  · cases hq : BatchPrinter.getPending q with
    | nil => exact absurd hq hne
    | cons b rest =>
        simp only [List.length_cons]
        exact attemptedCount_pos env continueChoice rest.length 0
  · rw [drainLoop_spec, if_neg hne]
    rfl
  · intro j b hj hget
    have := processSnap_get_lt env continueChoice now (BatchPrinter.getPending q) 0 j b hj hget
    simpa using this
  · intro j b hj hget
    refine ⟨processSnap_get_ge env continueChoice now (BatchPrinter.getPending q) 0 j b hj hget, ?_⟩
    exact getPending_status (List.get?_mem hget)
  · intro hlt
    have := attemptedCount_halt env continueChoice (BatchPrinter.getPending q).length 0 hlt
    simpa using this

/-- C1 witness: a single-item pending queue whose capture succeeds. -/
theorem C1_witness :
    drainLoop (fun _ => Except.ok "f.pdf") (fun _ => true) "T" [] [p0] 0 none =
      (writeBack [p0]
         (processSnap (fun _ => Except.ok "f.pdf") (fun _ => true) "T"
           (BatchPrinter.getPending [p0]) 0),
       BatchPrinter.save "T"
         (writeBack [p0]
           (processSnap (fun _ => Except.ok "f.pdf") (fun _ => true) "T"
             (BatchPrinter.getPending [p0]) 0)),
       attemptedCount (fun _ => Except.ok "f.pdf") (fun _ => true)
         (BatchPrinter.getPending [p0]).length 0) :=
  (C1_process_drain (fun _ => Except.ok "f.pdf") (fun _ => true) "T" [p0] none
    (by decide)).2.2.1

/-!
Claim C2: the auto-clear decision after the drain loop.
-/

/-- C2 counterexample: the queue holds a 'failed' item left by an earlier run
(so it is not in this run's pending snapshot) and one pending item whose
capture succeeds.  The claim says such a queue must be left intact, but the
summary counts are computed over this run's snapshot only, so the whole queue
is cleared. -/
theorem C2_counterexample :
    itemF.status = Status.failed ∧
    processAction (fun _ => Except.ok "f.pdf") (fun _ => true) "T" [itemF, p0] none =
      ([], none) := by
  exact ⟨rfl, by decide⟩

/-- C2 amended: after a process run with a non-empty pending list, the queue is
auto-cleared if and only if every item of this run's pending snapshot ends the
loop with status 'completed' (no snapshot item is 'failed' or still 'pending');
items outside the snapshot — in particular items already 'failed' before the
run — play no part in the decision. -/
theorem C2_autoclear_iff_snapshot_completed (env : Nat → Except String String)
    (continueChoice : Nat → Bool) (now : String) (q : List BatchItem)
    (file : Option BatchFile) (hne : BatchPrinter.getPending q ≠ []) :
    processAction env continueChoice now q file = ([], none) ↔
      ∀ b ∈ processSnap env continueChoice now (BatchPrinter.getPending q) 0,
        b.status = Status.completed := by
  have hlen : ¬ (BatchPrinter.getPending q).length = 0 := by
    intro h
    exact hne (List.length_eq_zero.mp h)
  simp only [processAction, if_neg hlen]
  by_cases hcond :
      ((processSnap env continueChoice now (BatchPrinter.getPending q) 0).filter
          (fun i => i.status = Status.failed)).length = 0 ∧
      ((processSnap env continueChoice now (BatchPrinter.getPending q) 0).filter
          (fun i => i.status = Status.pending)).length = 0
  · rw [if_pos hcond]
    simp only [BatchPrinter.clear, true_iff]
    intro b hb
    have hf := List.filter_eq_nil_iff.mp (List.length_eq_zero.mp hcond.1) b hb
    have hp := List.filter_eq_nil_iff.mp (List.length_eq_zero.mp hcond.2) b hb
    simp only [decide_eq_true_eq] at hf hp
    cases hs : b.status with
    | pending => exact absurd hs hp
    | completed => rfl
    | failed => exact absurd hs hf
  · rw [if_neg hcond]
    constructor
    · intro hres
      exfalso
      have h2 : (drainLoop env continueChoice now [] q 0 file).2.1 = none :=
        congrArg Prod.snd hres
      rw [drainLoop_spec, if_neg hne] at h2
      simp [BatchPrinter.save] at h2
    · intro hall
      exfalso
      apply hcond
      constructor
      · rw [List.length_eq_zero, List.filter_eq_nil_iff]
        intro b hb
        simp only [decide_eq_true_eq]
        rw [hall b hb]
        intro hcontra
        exact Status.noConfusion hcontra
      · rw [List.length_eq_zero, List.filter_eq_nil_iff]
        intro b hb
        simp only [decide_eq_true_eq]
        rw [hall b hb]
        intro hcontra
        exact Status.noConfusion hcontra

/-- C2 witness: a run whose single pending capture succeeds clears the queue. -/
theorem C2_witness :
    processAction (fun _ => Except.ok "f.pdf") (fun _ => true) "T" [p0] none = ([], none) :=
  (C2_autoclear_iff_snapshot_completed (fun _ => Except.ok "f.pdf") (fun _ => true) "T"
    [p0] none (by decide)).mpr (by decide)

/-!
Claim C3: statuses and processedAt after a process run.
-/

/-- C3 counterexample: a single pending item whose capture fails (operator
continues) ends the process run with status 'failed' — a terminal,
non-'pending' status — yet its processedAt is unset: the failure path of the
drain loop records the error but never sets processedAt. -/
theorem C3_counterexample :
    (processAction (fun _ => Except.error "boom") (fun _ => true) "T" [p0] none).1 =
      [{ p0 with status := Status.failed, error := some "boom" }] ∧
    ({ p0 with status := Status.failed, error := some "boom" } : BatchItem).status ≠
      Status.pending ∧
    ({ p0 with status := Status.failed, error := some "boom" } : BatchItem).processedAt =
      none := by
  refine ⟨by decide, by decide, rfl⟩

/-- The post-loop snapshot preserves the invariant that processedAt is set
exactly on 'completed' items, provided every snapshot item starts 'pending'
with the invariant. -/
theorem processSnap_processedAt_inv (env : Nat → Except String String)
    (continueChoice : Nat → Bool) (now : String) :
    ∀ (p : List BatchItem) (k : Nat),
      (∀ b ∈ p, b.status = Status.pending ∧
        (b.processedAt.isSome ↔ b.status = Status.completed)) →
      ∀ b ∈ processSnap env continueChoice now p k,
        b.processedAt.isSome ↔ b.status = Status.completed := by
  intro p
  induction p with
  | nil => intro k _ b hb; simp [processSnap] at hb
  | cons invoice rest ih =>
      intro k hinv b hb
      have hinv0 := hinv invoice (List.mem_cons_self invoice rest)
      have hnone : invoice.processedAt = none := by
        rcases hopt : invoice.processedAt with _ | v
        · rfl
        · exfalso
          have h1 := hinv0.2.mp (by rw [hopt]; rfl)
          rw [hinv0.1] at h1
          exact Status.noConfusion h1
      cases he : env k with
      | ok fn =>
          rw [processSnap, he] at hb
          rcases List.mem_cons.mp hb with hhead | htail
          · subst hhead; simp
          · exact ih (k + 1) (fun c hc => hinv c (List.mem_cons_of_mem invoice hc)) b htail
      | error msg =>
          rw [processSnap, he] at hb
          by_cases hc : continueChoice k
          · simp only [hc, if_true] at hb
            rcases List.mem_cons.mp hb with hhead | htail
            · subst hhead; simp [hnone]
            · exact ih (k + 1) (fun c hc2 => hinv c (List.mem_cons_of_mem invoice hc2)) b htail
          · rw [Bool.not_eq_true] at hc
            simp only [hc, Bool.false_eq_true, if_false] at hb
            rcases List.mem_cons.mp hb with hhead | htail
            · subst hhead; simp [hnone]
            · have hrest := hinv b (List.mem_cons_of_mem invoice htail)
              exact hrest.2

/-- Every member of a written-back queue comes from the original queue or from
the updated snapshot. -/
theorem writeBack_mem :
    ∀ (q s : List BatchItem) (b : BatchItem), b ∈ writeBack q s → b ∈ q ∨ b ∈ s := by
  intro q
  induction q with
  | nil => intro s b hb; simp [writeBack] at hb
  | cons x xs ih =>
      intro s b hb
      by_cases hx : x.status = Status.pending
      · cases s with
        | nil =>
            simp only [writeBack, if_pos hx] at hb
            rcases List.mem_cons.mp hb with hhead | htail
            · exact Or.inl (hhead ▸ List.mem_cons_self x xs)
            · rcases ih [] b htail with h | h
              · exact Or.inl (List.mem_cons_of_mem x h)
              · exact Or.inr h
        | cons u us =>
            simp only [writeBack, if_pos hx] at hb
            rcases List.mem_cons.mp hb with hhead | htail
            · exact Or.inr (hhead ▸ List.mem_cons_self u us)
            · rcases ih us b htail with h | h
              · exact Or.inl (List.mem_cons_of_mem x h)
              · exact Or.inr (List.mem_cons_of_mem u h)
      · simp only [writeBack, if_neg hx] at hb
        rcases List.mem_cons.mp hb with hhead | htail
        · exact Or.inl (hhead ▸ List.mem_cons_self x xs)
        · rcases ih s b htail with h | h
          · exact Or.inl (List.mem_cons_of_mem x h)
          · exact Or.inr h

/-- C3 amended: after any process run, every item of the resulting queue has a
status that is exactly one of 'pending', 'completed', 'failed', and — provided
every item entering the run satisfied it, as items created by `add` do —
processedAt is set if and only if the status is 'completed' (a 'failed' item
carries its error message but no processedAt). -/
theorem C3_status_processedAt (env : Nat → Except String String)
    (continueChoice : Nat → Bool) (now : String) (q : List BatchItem)
    (file : Option BatchFile)
    (hinv : ∀ b ∈ q, b.processedAt.isSome ↔ b.status = Status.completed) :
    ∀ b ∈ (processAction env continueChoice now q file).1,
      (b.status = Status.pending ∨ b.status = Status.completed ∨
        b.status = Status.failed) ∧
      (b.processedAt.isSome ↔ b.status = Status.completed) := by
  have htri : ∀ c : BatchItem, c.status = Status.pending ∨ c.status = Status.completed ∨
      c.status = Status.failed := by
    intro c
    cases hs : c.status
    · exact Or.inl rfl
    · exact Or.inr (Or.inl rfl)
    · exact Or.inr (Or.inr rfl)
  intro b hb
  refine ⟨htri b, ?_⟩
  by_cases hlen : (BatchPrinter.getPending q).length = 0
  · simp only [processAction, if_pos hlen] at hb
    exact hinv b hb
  · have hne : BatchPrinter.getPending q ≠ [] := by
      intro h; rw [h] at hlen; simp at hlen
    simp only [processAction, if_neg hlen] at hb
    by_cases hcond : ((processSnap env continueChoice now (BatchPrinter.getPending q)
        0).filter (fun i => i.status = Status.failed)).length = 0 ∧
        ((processSnap env continueChoice now (BatchPrinter.getPending q) 0).filter
          (fun i => i.status = Status.pending)).length = 0
    · rw [if_pos hcond] at hb
      simp [BatchPrinter.clear] at hb
    · rw [if_neg hcond] at hb
      rw [drainLoop_spec, if_neg hne] at hb
      simp only [List.reverse_nil, List.nil_append] at hb
      rcases writeBack_mem q _ b hb with hq | hs
      · exact hinv b hq
      · refine processSnap_processedAt_inv env continueChoice now
          (BatchPrinter.getPending q) 0 ?_ b hs
        intro c hc
        exact ⟨getPending_status hc, hinv c (List.mem_filter.mp hc).1⟩

/-- C3 witness: a failing single-item run, starting from a queue whose items
satisfy the invariant. -/
theorem C3_witness :
    (({ p0 with status := Status.failed, error := some "boom" } : BatchItem).status =
        Status.pending ∨
      ({ p0 with status := Status.failed, error := some "boom" } : BatchItem).status =
        Status.completed ∨
      ({ p0 with status := Status.failed, error := some "boom" } : BatchItem).status =
        Status.failed) ∧
    (({ p0 with status := Status.failed, error := some "boom" } : BatchItem).processedAt.isSome ↔
      ({ p0 with status := Status.failed, error := some "boom" } : BatchItem).status =
        Status.completed) :=
  C3_status_processedAt (fun _ => Except.error "boom") (fun _ => true) "T" [p0] none
    (by decide) { p0 with status := Status.failed, error := some "boom" } (by decide)

/-- C8 witness: a concrete process run starting from a reconciled queue/file
pair stays reconciled. -/
theorem C8_witness :
    BatchPrinter.load (processAction (fun _ => Except.ok "f.pdf") (fun _ => true) "T" [p0]
        (BatchPrinter.save "T0" [p0])).2 =
      (processAction (fun _ => Except.ok "f.pdf") (fun _ => true) "T" [p0]
        (BatchPrinter.save "T0" [p0])).1 :=
  C8_memory_file_reconciled.2.2 (fun _ => Except.ok "f.pdf") (fun _ => true) "T" [p0]
    (BatchPrinter.save "T0" [p0]) rfl
